import Mathlib

/-!
# Verification of the terra CLI build-orchestration subsystem

Shallow embedding of the algorithmic core of the `fernkit/terra` CLI:

* `_find_available_port` (src/commands/fire.py): bounded port-fallback search.
* `ProjectDetector.find_project_root` / `is_fern_project` (src/utils/system.py):
  upward walk looking for a project marker file.
* `_find_fern_source` (src/commands/fire.py): ordered candidate search for the
  framework source tree.
* `_ensure_fern_web_library` (src/commands/fire.py): the library cache builder,
  including the staleness check, per-file compilation, archiving, and cleanup.
* `parse_simple_yaml` (src/commands/fire.py): the minimal indentation-based
  config parser.

The filesystem and the external toolchain are modelled abstractly: file
existence and modification times are explicit data, and the compiler/archiver
are opaque processes whose exit status (and, for the archiver, the state it
leaves at its output path on failure) are parameters of the model.
-/

namespace Terra

/-! ## Port fallback search (`_find_available_port`)

`avail q = true` models "a throwaway probe socket can bind to port `q`".
The Python loop tries `start_port + i` for `i in range(max_attempts)`
(`max_attempts = 10`), returning the first port that binds; if none binds it
prints a warning and returns the original port. -/

/-- The `for i in range(max_attempts)` probe loop: returns the first port
`startPort + i` (for `i = first, first+1, ...`, `fuel` attempts remaining)
that binds, or `none`. -/
def probePorts (avail : Nat → Bool) (startPort : Nat) : Nat → Nat → Option Nat
  | _, 0 => none
  | i, fuel + 1 =>
    if avail (startPort + i) then some (startPort + i)
    else probePorts avail startPort (i + 1) fuel

/-- `_find_available_port(start_port, max_attempts=10)`. The second component
of the result records whether the could-not-find-port warning was printed. -/
def findAvailablePort (avail : Nat → Bool) (startPort : Nat) : Nat × Bool :=
  match probePorts avail startPort 0 10 with
  | some p => (p, false)
  | none => (startPort, true)

/-! ## Project root detection (`ProjectDetector`)

A directory is modelled as its component path listed deepest-first: the
filesystem root is `[]`, and `Path.parent` of `c :: rest` is `rest` (the
root is its own parent, matching `pathlib`). The presence of the two marker
files is modelled by predicates on directories. -/

/-- A directory path, components listed deepest component first;
`[]` is the filesystem root. -/
abbrev Dir := List String

/-- `ProjectDetector.is_fern_project(path)`: the directory contains a
`fern.yaml` or a `fern.toml`. `hasYaml` / `hasToml` model existence of the
two marker files in a given directory. -/
def is_fern_project (hasYaml hasToml : Dir → Bool) (path : Dir) : Bool :=
  hasYaml path || hasToml path

/-- `ProjectDetector.find_project_root(start_path)`: walk upward while
`current != current.parent`, returning the first directory that is a fern
project; `None` if the loop terminates at the filesystem root. The root
itself satisfies `current == current.parent`, so the loop body never runs
there. -/
def find_project_root (hasYaml hasToml : Dir → Bool) : Dir → Option Dir
  | [] => none
  | c :: rest =>
    if is_fern_project hasYaml hasToml (c :: rest) then some (c :: rest)
    else find_project_root hasYaml hasToml rest

/-! ## Source locator (`_find_fern_source`, src/commands/fire.py)

Candidate roots are abstract values; `exists` of the three probed paths under
a candidate is modelled by a predicate on derived paths. A path here is a
root-first component list (only `++` is needed, so orientation is free). -/

/-- Existence test used for each candidate `src_path`: `src_path/"src"/"cpp"`
exists, `.../include/fern` exists and `.../src` exists. `fsExists` models
`Path.exists`. -/
def fernShapeOk (fsExists : List String → Bool) (srcPath : List String) : Bool :=
  fsExists (srcPath ++ ["src", "cpp"]) &&
  fsExists (srcPath ++ ["src", "cpp", "include", "fern"]) &&
  fsExists (srcPath ++ ["src", "cpp", "src"])

/-- The derived path returned for a matching candidate: `src_path/"src"/"cpp"`. -/
def cppSrcOf (srcPath : List String) : List String :=
  srcPath ++ ["src", "cpp"]

/-- `_find_fern_source`: scan the fixed ordered candidate list, returning
`cpp_src` of the first candidate passing the shape test, else `None`. -/
def find_fern_source (fsExists : List String → Bool) :
    List (List String) → Option (List String)
  | [] => none
  | c :: rest =>
    if fernShapeOk fsExists c then some (cppSrcOf c)
    else find_fern_source fsExists rest

/-! ## Library cache builder (`_ensure_fern_web_library`, src/commands/fire.py)

The cache directory holds at most one artifact `libfern_web.a` plus numbered
object files `obj_<i>.o`. A source tree is abstracted to the list of files
matched by the five glob patterns (`core/*.cpp`, `graphics/*.cpp`,
`text/*.cpp`, `font/*.cpp`, `ui/**/*.cpp`, in glob enumeration order) and the
three optional platform files. The compiler and archiver are opaque external
processes described by a `Toolchain`. -/

/-- A source file: its basename (used in error messages) and its
modification time. -/
structure SrcFile where
  name : String
  mtime : Nat
deriving Repr, DecidableEq

/-- State of the cache path `~/.fern/cache/web/libfern_web.a`: absent, a
completely written archive, or a partially written archive left behind by a
failed archiver process (both of the latter exist as files with an mtime). -/
inductive LibState where
  | absent
  | complete (mtime : Nat)
  | halfWritten (mtime : Nat)
deriving Repr, DecidableEq

/-- The modification time of the file at the artifact path, when it exists. -/
def LibState.mtimeOf : LibState → Option Nat
  | .absent => none
  | .complete m => some m
  | .halfWritten m => some m

/-- The framework source tree, as seen through the builder's fixed glob
patterns and its three named platform files (`src/platform/web_renderer.cpp`,
`src/platform/platform_factory.cpp`, `src/fern.cpp`); `none` models a
platform file that does not exist. -/
structure FernSource where
  globbed : List SrcFile
  webRenderer : Option SrcFile
  platformFactory : Option SrcFile
  fernCpp : Option SrcFile
deriving Repr, DecidableEq

/-- The platform files that exist, in the order the code checks them. -/
def FernSource.platformFiles (src : FernSource) : List SrcFile :=
  [src.webRenderer, src.platformFactory, src.fernCpp].filterMap id

/-- All files collected for compilation: glob matches first, then existing
platform files (the order used by the build loop). -/
def FernSource.sourceFiles (src : FernSource) : List SrcFile :=
  src.globbed ++ src.platformFiles

/-- The external toolchain: per-source-file compiler outcome and diagnostics,
the archiver outcome and diagnostics, and — since the archiver is handed the
real artifact path — the state a *failed* archiver invocation leaves at its
output path (a behaviour of the opaque external process, possibly a partial
archive). -/
structure Toolchain where
  compileOk : Nat → Bool
  compileErr : Nat → String
  archiveOk : Bool
  archiveErr : String
  archFailLeaves : LibState → LibState

/-- User-visible messages emitted by the builder. -/
inductive Msg where
  | building
  | compileFailed (name : String) (stderr : String)
  | archiveFailed (stderr : String)
  | buildSuccess
  | usingCached
deriving Repr, DecidableEq

/-- Externally visible actions of one builder run. `archiveCmd`'s first field
records whether the archiver's output argument is the final artifact path
(`true`) or a temporary name (`false`); `renameToLib` and `unlinkLib` are the
actions an atomic-replace protocol would use. -/
inductive Action where
  | compileCmd (srcName : String) (objIdx : Nat) (ok : Bool)
  | archiveCmd (targetIsLibPath : Bool) (objCount : Nat) (ok : Bool)
  | unlinkObj (i : Nat)
  | unlinkLib
  | renameToLib (tmpName : String)
  | print (m : Msg)
deriving Repr, DecidableEq

/-- The fixed artifact path returned by the builder. -/
def libPath : String := "~/.fern/cache/web/libfern_web.a"

/-- `if any matched source file is newer than the library` — the inner check
of the staleness test: the glob patterns first, then the existing platform
files, `>` strict on mtimes. -/
def sourceNewer (src : FernSource) (libMtime : Nat) : Bool :=
  src.globbed.any (fun f => libMtime < f.mtime) ||
  src.platformFiles.any (fun f => libMtime < f.mtime)

/-- `needs_rebuild` as computed by `_ensure_fern_web_library`: `True` when the
artifact file does not exist, otherwise `source_newer`. A partially written
file at the artifact path exists, so it is compared by mtime like any file. -/
def needsRebuild (lib : LibState) (src : FernSource) : Bool :=
  match lib.mtimeOf with
  | none => true
  | some m => sourceNewer src m

/-- Object files present in the cache directory, as a set of indices.
A successful compile of source `i` (over)writes `obj_<i>.o`. -/
def insertObj (i : Nat) (objs : List Nat) : List Nat :=
  if i ∈ objs then objs else objs ++ [i]

/-- Intermediate state of the compile loop: object files on disk plus the
action trace so far. -/
structure BuildSt where
  objs : List Nat
  trace : List Action
deriving Repr, DecidableEq

/-- The `for i, src_file in enumerate(source_files)` loop: compile each file
to `obj_<i>.o`; on the first non-zero exit, print the file's name and the
compiler diagnostics and abort (`.error`), without touching later files. -/
def compileLoop (tc : Toolchain) : List SrcFile → Nat → BuildSt → Except BuildSt BuildSt
  | [], _, st => .ok st
  | f :: rest, i, st =>
    if tc.compileOk i then
      compileLoop tc rest (i + 1)
        { objs := insertObj i st.objs,
          trace := st.trace ++ [.compileCmd f.name i true] }
    else
      .error { objs := st.objs,
               trace := st.trace ++ [.compileCmd f.name i false,
                                     .print (.compileFailed f.name (tc.compileErr i))] }

/-- Result of one `_ensure_fern_web_library` call: the returned value
(`some libPath` or `None`), the final state of the artifact path, the object
files left in the cache directory, and the action trace. -/
structure BuildRun where
  result : Option String
  lib : LibState
  objs : List Nat
  trace : List Action
deriving Repr, DecidableEq

/-- The cleanup pass after a successful archive: `for obj in object_files:
if obj.exists(): obj.unlink()` — one unlink per tracked object file present. -/
def cleanupActs (objs : List Nat) (n : Nat) : List Action :=
  (List.range n).filterMap fun i => if i ∈ objs then some (.unlinkObj i) else none

/-- `_ensure_fern_web_library(fern_source)`, as a function of the toolchain,
the source tree, the initial artifact state, the object files already in the
cache directory, and the current wall-clock time `now` (the mtime a freshly
archived artifact gets). -/
def ensureFernWebLibrary (tc : Toolchain) (src : FernSource) (lib0 : LibState)
    (objs0 : List Nat) (now : Nat) : BuildRun :=
  if needsRebuild lib0 src then
    let files := src.sourceFiles
    match compileLoop tc files 0 { objs := objs0, trace := [.print .building] } with
    | .error st => { result := none, lib := lib0, objs := st.objs, trace := st.trace }
    | .ok st =>
      let st2 : BuildSt :=
        { objs := st.objs, trace := st.trace ++ [.archiveCmd true files.length tc.archiveOk] }
      if tc.archiveOk then
        { result := some libPath,
          lib := .complete now,
          objs := st2.objs.filter (fun i => !decide (i < files.length)),
          trace := st2.trace ++ cleanupActs st2.objs files.length ++ [.print .buildSuccess] }
      else
        { result := none,
          lib := tc.archFailLeaves lib0,
          objs := st2.objs,
          trace := st2.trace ++ [.print (.archiveFailed tc.archiveErr)] }
  else
    { result := some libPath, lib := lib0, objs := objs0,
      trace := [.print .usingCached] }

/-- Number of compiler invocations recorded in a trace. -/
def countCompiles (trace : List Action) : Nat :=
  trace.countP fun a => match a with | .compileCmd _ _ _ => true | _ => false

/-- Number of archiver invocations recorded in a trace. -/
def countArchives (trace : List Action) : Nat :=
  trace.countP fun a => match a with | .archiveCmd _ _ _ => true | _ => false

/-- The messages printed during a run, in order. -/
def msgsOf (trace : List Action) : List Msg :=
  trace.filterMap fun a => match a with | .print m => some m | _ => none

/-! ## Minimal config parser (`parse_simple_yaml`, src/commands/fire.py)

Python string primitives (`strip`, `lstrip`, `lower`, `isdigit`, `split`,
`int`) are embedded over `List Char` (the relevant inputs are ASCII). Parsed
values are strings, booleans, integers or nested dictionaries; Python dicts
are insertion-ordered association lists. The Python parser keeps a stack of
aliases into the result; since every write goes to the top of the stack and
the stack is always the chain of dictionaries along the current key path,
it is embedded as path-based insertion into the result. -/

/-- A parsed config value (`str` / `bool` / `int` / nested `dict`). -/
inductive YVal where
  | s (v : String)
  | b (v : Bool)
  | i (v : Nat)
  | dict (entries : List (String × YVal))

/-- Whitespace characters stripped by Python's `str.strip`, ASCII fragment. -/
def pyIsSpace (c : Char) : Bool :=
  c = ' ' || c = '\t' || c = '\n' || c = '\x0d' || c = '\x0b' || c = '\x0c'

/-- `str.lstrip()`. -/
def pyLStrip (l : List Char) : List Char := l.dropWhile pyIsSpace

/-- `str.strip()`. -/
def pyStrip (l : List Char) : List Char :=
  ((l.dropWhile pyIsSpace).reverse.dropWhile pyIsSpace).reverse

/-- ASCII lower-casing of one character (`str.lower`). -/
def pyCharLower (c : Char) : Char :=
  if 65 ≤ c.toNat ∧ c.toNat ≤ 90 then Char.ofNat (c.toNat + 32) else c

/-- `str.lower()`. -/
def pyLower (l : List Char) : List Char := l.map pyCharLower

/-- One character of `str.isdigit` (ASCII decimal digits). -/
def pyCharIsDigit (c : Char) : Bool := 48 ≤ c.toNat && c.toNat ≤ 57

/-- `str.isdigit()`: nonempty and all digits. -/
def pyIsDigit (l : List Char) : Bool := !l.isEmpty && l.all pyCharIsDigit

/-- `int(s)` for an all-digit string. -/
def pyInt (l : List Char) : Nat := l.foldl (fun a c => 10 * a + (c.toNat - 48)) 0

/-- `s.split('\n')`. -/
def splitNl (l : List Char) : List (List Char) :=
  match l with
  | [] => [[]]
  | c :: rest =>
    match splitNl rest with
    | [] => [[]]
    | line :: lines => if c = '\n' then [] :: line :: lines else (c :: line) :: lines

/-- `stripped.split(':', 1)` combined with the `':' in stripped` test:
`some (before, after)` around the first colon, `none` when there is none. -/
def splitColon : List Char → Option (List Char × List Char)
  | [] => none
  | c :: rest =>
    if c = ':' then some ([], rest)
    else
      match splitColon rest with
      | some (k, v) => some (c :: k, v)
      | none => none

/-- The scalar conversion applied to a nonempty value: `'true'`/`'false'`
(case-insensitively) become booleans, all-digit strings become integers,
everything else stays a string. -/
def convertScalar (v : List Char) : YVal :=
  if pyLower v = "true".data then .b true
  else if pyLower v = "false".data then .b false
  else if pyIsDigit v then .i (pyInt v)
  else .s (String.mk v)

/-- `dict[key] = value` on an insertion-ordered association list: replace in
place if the key is present, else append. -/
def assocSet (k : String) (v : YVal) : List (String × YVal) → List (String × YVal)
  | [] => [(k, v)]
  | (k', v') :: rest => if k' = k then (k, v) :: rest else (k', v') :: assocSet k v rest

/-- `dict[key]` lookup. -/
def assocGet (d : List (String × YVal)) (k : String) : Option YVal :=
  match d with
  | [] => none
  | (k', v') :: rest => if k' = k then some v' else assocGet rest k

/-- Write `key = v` into the dictionary reached from `d` along `path`
(root-first). The parser only pushes a key after storing a fresh dictionary
under it, and only ever writes at the top of its stack, so the path always
designates a chain of dictionaries; the default `[]` branch is unreachable
under that invariant. -/
def setIn (d : List (String × YVal)) : List String → String → YVal → List (String × YVal)
  | [], k, v => assocSet k v d
  | p :: rest, k, v =>
    let sub := match assocGet d p with
      | some (.dict entries) => entries
      | _ => []
    assocSet p (.dict (setIn sub rest k v)) d

/-- The parser's stack above the root, innermost frame first: the key pushed
and the indentation column recorded with it (`indent_levels`; the root level
`0` is kept implicitly and never popped). -/
abbrev Frames := List (String × Nat)

/-- The `while len(indent_levels) > 1 and indent <= indent_levels[-1]` pop
loop. -/
def popFrames (indent : Nat) : Frames → Frames
  | [] => []
  | (k, lvl) :: rest => if indent ≤ lvl then popFrames indent rest else (k, lvl) :: rest

/-- Parser state: the result built so far and the open frames. -/
structure PState where
  acc : List (String × YVal)
  frames : Frames

/-- The root-first key path designated by the frames. -/
def framesPath (fr : Frames) : List String := (fr.map Prod.fst).reverse

/-- The body of the per-line loop of `parse_simple_yaml`: skip blank and
comment lines; pop frames by indentation; on `key: value` store the converted
scalar at the current path; on `key:` store a fresh dictionary and push a
frame; lines without a colon fall through (the pops persist). -/
def processLine (st : PState) (line : List Char) : PState :=
  let stripped := pyStrip line
  if stripped.isEmpty then st
  else if stripped.head? = some '#' then st
  else
    let indent := line.length - (pyLStrip line).length
    let frames := popFrames indent st.frames
    match splitColon stripped with
    | none => { st with frames := frames }
    | some (k0, v0) =>
      let key := String.mk (pyStrip k0)
      let value := pyStrip v0
      if value.isEmpty then
        { acc := setIn st.acc (framesPath frames) key (.dict []),
          frames := (key, indent) :: frames }
      else
        { acc := setIn st.acc (framesPath frames) key (convertScalar value),
          frames := frames }

/-- `parse_simple_yaml(content)`: strip the content, split into lines, run
the line loop from an empty result. -/
def parse_simple_yaml (content : String) : List (String × YVal) :=
  ((splitNl (pyStrip content.data)).foldl processLine { acc := [], frames := [] }).acc

/-! ## Derived notions and concrete instances used by the statements -/

/-- The object files present after compiling sources `i, i+1, ..., i+n-1`
(each successful compile writes `obj_<k>.o`). -/
def insertRange (objs : List Nat) (i : Nat) : Nat → List Nat
  | 0 => objs
  | n + 1 => insertRange (insertObj i objs) (i + 1) n

/-- The trace of an all-successful compile pass over `files`, starting at
object index `i`. -/
def compileTrace : List SrcFile → Nat → List Action
  | [], _ => []
  | f :: rest, i => .compileCmd f.name i true :: compileTrace rest (i + 1)

/-- The staleness condition exactly as the specification words it: the
artifact file does not exist, or some file matched by the glob patterns, or
one of the three existing platform files, has a modification time strictly
greater than the artifact's. -/
def staleSpec (lib : LibState) (src : FernSource) : Prop :=
  lib = .absent ∨
  ∃ m, lib.mtimeOf = some m ∧
    ((∃ f ∈ src.globbed, m < f.mtime) ∨ (∃ f ∈ src.platformFiles, m < f.mtime))

/-- `value[key]` on a parsed config value (`none` on non-dicts). -/
def YVal.getKey : YVal → String → Option YVal
  | .dict d, k => assocGet d k
  | _, _ => none

/-- A toolchain whose every invocation succeeds. -/
def tcAllOk : Toolchain :=
  { compileOk := fun _ => true, compileErr := fun _ => "",
    archiveOk := true, archiveErr := "", archFailLeaves := fun l => l }

/-- A toolchain whose compiler fails on the second source file. -/
def tcBadSecond : Toolchain :=
  { compileOk := fun i => i == 0, compileErr := fun _ => "boom",
    archiveOk := true, archiveErr := "", archFailLeaves := fun l => l }

/-- A toolchain whose archiver fails, leaving a partially written archive
(mtime 300) at its output path. -/
def tcArchFail : Toolchain :=
  { compileOk := fun _ => true, compileErr := fun _ => "",
    archiveOk := false, archiveErr := "ar err",
    archFailLeaves := fun _ => .halfWritten 300 }

/-- A small concrete source tree: two glob-matched files and one existing
platform file. -/
def srcEx : FernSource :=
  { globbed := [{ name := "a.cpp", mtime := 50 }, { name := "b.cpp", mtime := 60 }],
    webRenderer := none,
    platformFactory := some { name := "platform_factory.cpp", mtime := 55 },
    fernCpp := none }

/-- A concrete port-availability environment: every port above 8000 is free,
port 8000 itself is occupied by a dummy listener. -/
def availEx : Nat → Bool := fun q => 8000 < q

/-- A concrete marker layout: `fern.yaml` exists exactly in `/a/proj`
(deepest-first components `["proj", "a"]`). -/
def hasYamlEx : Dir → Bool := fun d => d == ["proj", "a"]

/-- A marker layout with no `fern.toml` anywhere. -/
def noToml : Dir → Bool := fun _ => false

/-- A marker layout whose only `fern.yaml` is in the filesystem root. -/
def rootOnlyYaml : Dir → Bool := fun d => d.isEmpty

/-! ## Theorems -/

/-- C2: the staleness check reports the cached artifact stale if and only if
the artifact file does not exist, or some file matched by the fixed glob
patterns, or one of the three existing platform files, has a modification
time strictly greater than the artifact's. -/
theorem c2_staleness_iff (lib : LibState) (src : FernSource) :
    needsRebuild lib src = true ↔ staleSpec lib src := by
  cases lib with
  | absent => simp [needsRebuild, staleSpec, LibState.mtimeOf]
  | complete m =>
    simp [needsRebuild, staleSpec, LibState.mtimeOf, sourceNewer, List.any_eq_true]
  | halfWritten m =>
    simp [needsRebuild, staleSpec, LibState.mtimeOf, sourceNewer, List.any_eq_true]

/-- C8: project-root resolution walks upward testing each directory for the
marker file: started three levels below a directory carrying a marker it
returns that ancestor, and started where no directory carries a marker it
returns `none`, terminating at the filesystem root. -/
theorem c8_find_project_root (hasYaml hasToml : Dir → Bool) :
    (∀ (a : Dir) (x y z : String), a ≠ [] →
      is_fern_project hasYaml hasToml a = true →
      is_fern_project hasYaml hasToml (z :: a) = false →
      is_fern_project hasYaml hasToml (y :: z :: a) = false →
      is_fern_project hasYaml hasToml (x :: y :: z :: a) = false →
      find_project_root hasYaml hasToml (x :: y :: z :: a) = some a) ∧
    (∀ start : Dir, (∀ d : Dir, is_fern_project hasYaml hasToml d = false) →
      find_project_root hasYaml hasToml start = none) := by
  constructor
  · intro a x y z ha hproj hz hy hx
    cases a with
    | nil => exact absurd rfl ha
    | cons c rest => simp [find_project_root, hx, hy, hz, hproj]
  · intro start hnone
    induction start with
    | nil => rfl
    | cons c rest ih => simp [find_project_root, hnone, ih]

/-- C8 witness: from `/a/proj/s1/s2/s3` the walk returns `/a/proj`, the
marker-carrying ancestor three levels up; with no marker anywhere the walk
returns `none`. -/
theorem c8_witness :
    find_project_root hasYamlEx noToml ["s3", "s2", "s1", "proj", "a"] =
      some ["proj", "a"] ∧
    find_project_root noToml noToml ["y", "x"] = none := by
  constructor
  · exact (c8_find_project_root hasYamlEx noToml).1 ["proj", "a"] "s3" "s2" "s1"
      (by decide) (by decide) (by decide) (by decide) (by decide)
  · exact (c8_find_project_root noToml noToml).2 ["y", "x"] (fun d => rfl)

/-- Helper for C9: `find_fern_source` returns the derived path of the first
candidate passing the shape test — if any candidate at index `i` passes, the
result comes from a passing candidate at some index `k ≤ i` with every
earlier candidate failing. -/
theorem find_fern_source_first_match (fsExists : List String → Bool) :
    ∀ (cands : List (List String)) (i : Nat) (ci : List String),
      cands.get? i = some ci → fernShapeOk fsExists ci = true →
      ∃ k, k ≤ i ∧ ∃ c, cands.get? k = some c ∧ fernShapeOk fsExists c = true ∧
        (∀ m cm, m < k → cands.get? m = some cm → fernShapeOk fsExists cm = false) ∧
        find_fern_source fsExists cands = some (cppSrcOf c) := by
  intro cands
  induction cands with
  | nil => intro i ci h; simp at h
  | cons c rest ih =>
    intro i ci hget hok
    by_cases hc : fernShapeOk fsExists c = true
    · exact ⟨0, Nat.zero_le _, c, rfl, hc,
        fun m cm hm _ => absurd hm (Nat.not_lt_zero m),
        by simp [find_fern_source, hc]⟩
    · cases i with
      | zero =>
        rw [show (c :: rest).get? 0 = some c from rfl] at hget
        injection hget with hci
        rw [hci] at hc
        exact absurd hok hc
      | succ ip =>
        have hget2 : rest.get? ip = some ci := by simpa using hget
        obtain ⟨k, hk, cw, hcw, hokw, hmin, hfind⟩ := ih ip ci hget2 hok
        refine ⟨k + 1, by omega, cw, by simpa using hcw, hokw, ?_, ?_⟩
        · intro m cm hm hgm
          cases m with
          | zero =>
            rw [show (c :: rest).get? 0 = some c from rfl] at hgm
            injection hgm with hcm
            rw [← hcm]
            exact Bool.eq_false_iff.mpr hc
          | succ mp => exact hmin mp cm (by omega) (by simpa using hgm)
        · simp only [find_fern_source, if_neg hc]
          exact hfind

/-- C9: source location is deterministic and order-respecting — when the
candidates at positions `i < j` of the ordered candidate list both satisfy
the subtree-shape test, the result is the `src/cpp` path derived from the
first satisfying candidate, whose index is at most `i` (so never the
later-listed one). -/
theorem c9_find_fern_source_order (fsExists : List String → Bool)
    (cands : List (List String)) (i j : Nat) (ci cj : List String)
    (hij : i < j) (hgi : cands.get? i = some ci) (hgj : cands.get? j = some cj)
    (hoki : fernShapeOk fsExists ci = true) (hokj : fernShapeOk fsExists cj = true) :
    ∃ k, k ≤ i ∧ ∃ c, cands.get? k = some c ∧ fernShapeOk fsExists c = true ∧
      (∀ m cm, m < k → cands.get? m = some cm → fernShapeOk fsExists cm = false) ∧
      find_fern_source fsExists cands = some (cppSrcOf c) :=
  find_fern_source_first_match fsExists cands i ci hgi hoki

/-- C9 witness: with every candidate satisfying the shape test, positions 1
and 2 both satisfy it and the result is derived from a candidate no later
than position 1. -/
theorem c9_witness :
    ∃ k, k ≤ 1 ∧ ∃ c, [["a"], ["b"], ["c"]].get? k = some c ∧
      fernShapeOk (fun _ => true) c = true ∧
      (∀ m cm, m < k → [["a"], ["b"], ["c"]].get? m = some cm →
        fernShapeOk (fun _ => true) cm = false) ∧
      find_fern_source (fun _ => true) [["a"], ["b"], ["c"]] = some (cppSrcOf c) :=
  c9_find_fern_source_order (fun _ => true) [["a"], ["b"], ["c"]] 1 2 ["b"] ["c"]
    (by omega) rfl rfl rfl rfl

/-- C10: the upward walk never tests the filesystem root itself: whenever the
marker files exist nowhere outside the root directory (the root may well
carry one), `find_project_root` returns `none` from every starting
directory. -/
theorem c10_root_marker_never_found (hasYaml hasToml : Dir → Bool)
    (h : ∀ d : Dir, d ≠ [] → hasYaml d = false ∧ hasToml d = false) :
    ∀ start : Dir, find_project_root hasYaml hasToml start = none := by
  intro start
  induction start with
  | nil => rfl
  | cons c rest ih =>
    have hc := h (c :: rest) (by simp)
    simp [find_project_root, is_fern_project, hc.1, hc.2, ih]

/-- C10 witness: with `fern.yaml` present exactly in the filesystem root,
the walk from `/a/b` still returns `none`. -/
theorem c10_witness :
    find_project_root rootOnlyYaml noToml ["b", "a"] = none ∧
    rootOnlyYaml [] = true := by
  refine ⟨?_, rfl⟩
  exact c10_root_marker_never_found rootOnlyYaml noToml
    (fun d hd => by
      cases d with
      | nil => exact absurd rfl hd
      | cons x xs => exact ⟨rfl, rfl⟩) ["b", "a"]

/-- Helper for C6: a successful probe returns an available port in the probed
window, and every earlier port in the window is unavailable. -/
theorem probePorts_some_spec (avail : Nat → Bool) (startPort : Nat) :
    ∀ fuel i p, probePorts avail startPort i fuel = some p →
      avail p = true ∧ startPort + i ≤ p ∧ p < startPort + i + fuel ∧
      ∀ q, startPort + i ≤ q → q < p → avail q = false := by
  intro fuel
  induction fuel with
  | zero => intro i p h; simp [probePorts] at h
  | succ fuel ih =>
    intro i p h
    rw [probePorts] at h
    cases hab : avail (startPort + i) with
    | true =>
      rw [hab] at h
      simp only [if_true] at h
      injection h with hp
      subst hp
      exact ⟨hab, Nat.le_refl _, by omega, fun q hq1 hq2 => by omega⟩
    | false =>
      rw [hab] at h
      simp only [Bool.false_eq_true, if_false] at h
      obtain ⟨h1, h2, h3, h4⟩ := ih (i + 1) p h
      refine ⟨h1, by omega, by omega, ?_⟩
      intro q hq1 hq2
      rcases Nat.eq_or_lt_of_le hq1 with heq | hlt
      · rw [← heq]; exact hab
      · exact h4 q (by omega) hq2

/-- Helper for C6: the probe loop misses exactly when every probed port is
unavailable. -/
theorem probePorts_none_iff (avail : Nat → Bool) (startPort : Nat) :
    ∀ fuel i, probePorts avail startPort i fuel = none ↔
      ∀ k, k < fuel → avail (startPort + i + k) = false := by
  intro fuel
  induction fuel with
  | zero => intro i; simp [probePorts]
  | succ fuel ih =>
    intro i
    rw [probePorts]
    cases hab : avail (startPort + i) with
    | true =>
      simp only [if_true]
      constructor
      · intro h; exact absurd h (by simp)
      · intro h
        have h0 := h 0 (Nat.zero_lt_succ fuel)
        rw [Nat.add_zero] at h0
        rw [h0] at hab
        cases hab
    | false =>
      simp only [Bool.false_eq_true, if_false]
      rw [ih (i + 1)]
      constructor
      · intro h k hk
        cases k with
        | zero => rw [Nat.add_zero]; exact hab
        | succ kp =>
          have heq : startPort + i + (kp + 1) = startPort + (i + 1) + kp := by omega
          rw [heq]
          exact h kp (by omega)
      · intro h k hk
        have heq : startPort + (i + 1) + k = startPort + i + (k + 1) := by omega
        rw [heq]
        exact h (k + 1) (by omega)

/-- C6: for every requested port `p`, the fallback search returns the
smallest bindable port in the window `[p, p+9]` with no warning; when `p`
itself is occupied but the window holds a free port, the result is strictly
above `p` (never the occupied port); and when every port in the window fails
to bind, it returns `p` itself and prints the warning (no exception). -/
theorem c6_find_available_port (p : Nat) (avail : Nat → Bool) :
    (∀ q, avail q = true → p ≤ q → q ≤ p + 9 →
      avail (findAvailablePort avail p).1 = true ∧
      p ≤ (findAvailablePort avail p).1 ∧
      (findAvailablePort avail p).1 ≤ p + 9 ∧
      (findAvailablePort avail p).1 ≤ q ∧
      (findAvailablePort avail p).2 = false) ∧
    (avail p = false → (∃ q, avail q = true ∧ p ≤ q ∧ q ≤ p + 9) →
      p < (findAvailablePort avail p).1 ∧
      avail (findAvailablePort avail p).1 = true) ∧
    ((∀ q, p ≤ q → q ≤ p + 9 → avail q = false) →
      findAvailablePort avail p = (p, true)) := by
  cases hpr : probePorts avail p 0 10 with
  | some r =>
    obtain ⟨h1, h2, h3, h4⟩ := probePorts_some_spec avail p 10 0 r hpr
    rw [Nat.add_zero] at h2 h3 h4
    have hres : findAvailablePort avail p = (r, false) := by
      rw [findAvailablePort, hpr]
    rw [hres]
    refine ⟨?_, ?_, ?_⟩
    · intro q hq hq1 hq2
      refine ⟨h1, h2, by omega, ?_, rfl⟩
      by_contra hlt
      push_neg at hlt
      have hfq := h4 q hq1 hlt
      rw [hq] at hfq
      cases hfq
    · intro hp _
      refine ⟨?_, h1⟩
      rcases Nat.eq_or_lt_of_le h2 with heq | hlt
      · rw [← heq] at h1; rw [h1] at hp; cases hp
      · exact hlt
    · intro hall
      have hr := hall r h2 (by omega)
      rw [hr] at h1
      cases h1
  | none =>
    have hres : findAvailablePort avail p = (p, true) := by
      rw [findAvailablePort, hpr]
    rw [probePorts_none_iff] at hpr
    rw [hres]
    refine ⟨?_, ?_, ?_⟩
    · intro q hq hq1 hq2
      have hfq := hpr (q - p) (by omega)
      rw [Nat.add_zero, show p + (q - p) = q from by omega] at hfq
      rw [hq] at hfq
      cases hfq
    · intro hp hex
      obtain ⟨q, hq, hq1, hq2⟩ := hex
      have hfq := hpr (q - p) (by omega)
      rw [Nat.add_zero, show p + (q - p) = q from by omega] at hfq
      rw [hq] at hfq
      cases hfq
    · intro _; rfl

/-- C6 witness: with port 8000 occupied and everything above it free, the
search picks a strictly higher, available port. -/
theorem c6_witness :
    8000 < (findAvailablePort availEx 8000).1 ∧
    availEx (findAvailablePort availEx 8000).1 = true :=
  (c6_find_available_port 8000 availEx).2.1 rfl ⟨8001, rfl, by omega, by omega⟩

/-- Membership in the object-file set after one successful compile. -/
theorem mem_insertObj (i k : Nat) (objs : List Nat) :
    k ∈ insertObj i objs ↔ k ∈ objs ∨ k = i := by
  unfold insertObj
  by_cases h : i ∈ objs
  · rw [if_pos h]
    constructor
    · exact Or.inl
    · rintro (hk | rfl)
      · exact hk
      · exact h
  · rw [if_neg h]
    simp

/-- Membership in the object-file set after compiling a run of sources. -/
theorem mem_insertRange (k : Nat) :
    ∀ (n : Nat) (objs : List Nat) (i : Nat),
      k ∈ insertRange objs i n ↔ k ∈ objs ∨ (i ≤ k ∧ k < i + n) := by
  intro n
  induction n with
  | zero =>
    intro objs i
    rw [insertRange]
    constructor
    · exact Or.inl
    · rintro (h | ⟨h1, h2⟩)
      · exact h
      · omega
  | succ n ih =>
    intro objs i
    rw [insertRange, ih (insertObj i objs) (i + 1), mem_insertObj]
    constructor
    · rintro ((h | rfl) | ⟨h1, h2⟩)
      · exact Or.inl h
      · exact Or.inr ⟨Nat.le_refl _, by omega⟩
      · exact Or.inr ⟨by omega, by omega⟩
    · rintro (h | ⟨h1, h2⟩)
      · exact Or.inl (Or.inl h)
      · rcases Nat.eq_or_lt_of_le h1 with heq | hlt
        · exact Or.inl (Or.inr heq.symm)
        · exact Or.inr ⟨by omega, by omega⟩

/-- The compile loop when every compiler invocation succeeds. -/
theorem compileLoop_ok (tc : Toolchain) :
    ∀ (files : List SrcFile) (i : Nat) (st : BuildSt),
      (∀ k, k < files.length → tc.compileOk (i + k) = true) →
      compileLoop tc files i st =
        .ok { objs := insertRange st.objs i files.length,
              trace := st.trace ++ compileTrace files i } := by
  intro files
  induction files with
  | nil => intro i st h; simp [compileLoop, insertRange, compileTrace]
  | cons f rest ih =>
    intro i st h
    have h0 : tc.compileOk i = true := by
      have := h 0 (Nat.zero_lt_succ rest.length)
      rwa [Nat.add_zero] at this
    have hshift : ∀ k, k < rest.length → tc.compileOk (i + 1 + k) = true := by
      intro k hk
      have := h (k + 1) (by simp; omega)
      rwa [show i + (k + 1) = i + 1 + k from by omega] at this
    simp only [compileLoop, h0, if_true]
    rw [ih (i + 1) _ hshift]
    simp [compileTrace, insertRange, List.append_assoc]

/-- The compile loop when compilation of the `j`-th file is the first to
fail: files beyond `j` are never compiled and the failure is reported with
the offending file's name and the compiler diagnostics. -/
theorem compileLoop_fail (tc : Toolchain) :
    ∀ (j : Nat) (files : List SrcFile) (i : Nat) (st : BuildSt) (hj : j < files.length),
      (∀ k, k < j → tc.compileOk (i + k) = true) →
      tc.compileOk (i + j) = false →
      compileLoop tc files i st =
        .error { objs := insertRange st.objs i j,
                 trace := st.trace ++ compileTrace (files.take j) i ++
                   [.compileCmd (files.get ⟨j, hj⟩).name (i + j) false,
                    .print (.compileFailed (files.get ⟨j, hj⟩).name (tc.compileErr (i + j)))] } := by
  intro j
  induction j with
  | zero =>
    intro files i st hj hok hfail
    cases files with
    | nil => simp at hj
    | cons f rest =>
      rw [Nat.add_zero] at hfail
      simp only [compileLoop, hfail, Bool.false_eq_true, if_false]
      simp [insertRange, compileTrace]
  | succ jp ih =>
    intro files i st hj hok hfail
    cases files with
    | nil => simp at hj
    | cons f rest =>
      have h0 : tc.compileOk i = true := by
        have := hok 0 (Nat.zero_lt_succ jp)
        rwa [Nat.add_zero] at this
      have hj2 : jp < rest.length := by
        simpa using hj
      have hok2 : ∀ k, k < jp → tc.compileOk (i + 1 + k) = true := by
        intro k hk
        have := hok (k + 1) (by omega)
        rwa [show i + (k + 1) = i + 1 + k from by omega] at this
      have hfail2 : tc.compileOk (i + 1 + jp) = false := by
        rwa [show i + 1 + jp = i + (jp + 1) from by omega]
      simp only [compileLoop, h0, if_true]
      rw [ih rest (i + 1) _ hj2 hok2 hfail2]
      have hidx : i + 1 + jp = i + (jp + 1) := by omega
      simp [compileTrace, insertRange, List.append_assoc, hidx]

/-- Compiler-invocation count of an all-successful compile trace. -/
theorem countCompiles_compileTrace (files : List SrcFile) : ∀ i,
    countCompiles (compileTrace files i) = files.length := by
  induction files with
  | nil => intro i; rfl
  | cons f rest ih =>
    intro i
    have := ih (i + 1)
    unfold countCompiles at this ⊢
    rw [compileTrace, List.countP_cons, this]
    simp

/-- An all-successful compile trace contains no archiver invocation. -/
theorem countArchives_compileTrace (files : List SrcFile) : ∀ i,
    countArchives (compileTrace files i) = 0 := by
  induction files with
  | nil => intro i; rfl
  | cons f rest ih =>
    intro i
    have := ih (i + 1)
    unfold countArchives at this ⊢
    rw [compileTrace, List.countP_cons, this]
    simp

/-- An all-successful compile trace prints nothing. -/
theorem msgsOf_compileTrace (files : List SrcFile) : ∀ i,
    msgsOf (compileTrace files i) = [] := by
  induction files with
  | nil => intro i; rfl
  | cons f rest ih =>
    intro i
    have := ih (i + 1)
    unfold msgsOf at this ⊢
    rw [compileTrace, List.filterMap_cons, this]

/-- Every cleanup action is an object-file unlink. -/
theorem cleanupActs_shape (objs : List Nat) (n : Nat) :
    ∀ a ∈ cleanupActs objs n, ∃ i, a = Action.unlinkObj i := by
  intro a ha
  unfold cleanupActs at ha
  rw [List.mem_filterMap] at ha
  obtain ⟨x, _, hfx⟩ := ha
  by_cases hmem : x ∈ objs
  · rw [if_pos hmem] at hfx
    injection hfx with hfx2
    exact ⟨x, hfx2.symm⟩
  · rw [if_neg hmem] at hfx
    cases hfx

/-- The cleanup pass invokes no compiler. -/
theorem countCompiles_cleanupActs (objs : List Nat) (n : Nat) :
    countCompiles (cleanupActs objs n) = 0 := by
  unfold countCompiles
  rw [List.countP_eq_zero]
  intro a ha
  obtain ⟨i, rfl⟩ := cleanupActs_shape objs n a ha
  simp

/-- The cleanup pass invokes no archiver. -/
theorem countArchives_cleanupActs (objs : List Nat) (n : Nat) :
    countArchives (cleanupActs objs n) = 0 := by
  unfold countArchives
  rw [List.countP_eq_zero]
  intro a ha
  obtain ⟨i, rfl⟩ := cleanupActs_shape objs n a ha
  simp

/-- The cleanup pass prints nothing. -/
theorem msgsOf_cleanupActs (objs : List Nat) (n : Nat) :
    msgsOf (cleanupActs objs n) = [] := by
  unfold msgsOf
  rw [List.filterMap_eq_nil_iff]
  intro a ha
  obtain ⟨i, rfl⟩ := cleanupActs_shape objs n a ha
  rfl

/-- The cache-hit fast path: artifact present and not stale. -/
theorem ensure_cache_hit (tc : Toolchain) (src : FernSource) (lib0 : LibState)
    (objs0 : List Nat) (now : Nat) (h : needsRebuild lib0 src = false) :
    ensureFernWebLibrary tc src lib0 objs0 now =
      { result := some libPath, lib := lib0, objs := objs0,
        trace := [.print .usingCached] } := by
  simp [ensureFernWebLibrary, h]

/-- A fully successful rebuild: every compile succeeds and the archiver
succeeds. -/
theorem ensure_rebuild_success (tc : Toolchain) (src : FernSource) (lib0 : LibState)
    (objs0 : List Nat) (now : Nat)
    (hreb : needsRebuild lib0 src = true)
    (hc : ∀ k, k < src.sourceFiles.length → tc.compileOk k = true)
    (ha : tc.archiveOk = true) :
    ensureFernWebLibrary tc src lib0 objs0 now =
      { result := some libPath,
        lib := .complete now,
        objs := (insertRange objs0 0 src.sourceFiles.length).filter
          (fun i => !decide (i < src.sourceFiles.length)),
        trace := [.print .building] ++ compileTrace src.sourceFiles 0 ++
          [.archiveCmd true src.sourceFiles.length true] ++
          cleanupActs (insertRange objs0 0 src.sourceFiles.length)
            src.sourceFiles.length ++
          [.print .buildSuccess] } := by
  have hc0 : ∀ k, k < src.sourceFiles.length → tc.compileOk (0 + k) = true := by
    intro k hk
    rw [Nat.zero_add]
    exact hc k hk
  simp only [ensureFernWebLibrary, hreb, if_true]
  rw [compileLoop_ok tc src.sourceFiles 0 _ hc0]
  simp [ha, List.append_assoc]

/-- A rebuild in which every compile succeeds but the archiver exits
non-zero. -/
theorem ensure_archive_failure (tc : Toolchain) (src : FernSource) (lib0 : LibState)
    (objs0 : List Nat) (now : Nat)
    (hreb : needsRebuild lib0 src = true)
    (hc : ∀ k, k < src.sourceFiles.length → tc.compileOk k = true)
    (ha : tc.archiveOk = false) :
    ensureFernWebLibrary tc src lib0 objs0 now =
      { result := none,
        lib := tc.archFailLeaves lib0,
        objs := insertRange objs0 0 src.sourceFiles.length,
        trace := [.print .building] ++ compileTrace src.sourceFiles 0 ++
          [.archiveCmd true src.sourceFiles.length false,
           .print (.archiveFailed tc.archiveErr)] } := by
  have hc0 : ∀ k, k < src.sourceFiles.length → tc.compileOk (0 + k) = true := by
    intro k hk
    rw [Nat.zero_add]
    exact hc k hk
  simp only [ensureFernWebLibrary, hreb, if_true]
  rw [compileLoop_ok tc src.sourceFiles 0 _ hc0]
  simp [ha, List.append_assoc]

/-- A rebuild aborted by the first failing compile. -/
theorem ensure_compile_failure (tc : Toolchain) (src : FernSource) (lib0 : LibState)
    (objs0 : List Nat) (now : Nat) (j : Nat)
    (hreb : needsRebuild lib0 src = true)
    (hj : j < src.sourceFiles.length)
    (hok : ∀ k, k < j → tc.compileOk k = true)
    (hfail : tc.compileOk j = false) :
    ensureFernWebLibrary tc src lib0 objs0 now =
      { result := none, lib := lib0,
        objs := insertRange objs0 0 j,
        trace := [.print .building] ++ compileTrace (src.sourceFiles.take j) 0 ++
          [.compileCmd (src.sourceFiles.get ⟨j, hj⟩).name j false,
           .print (.compileFailed (src.sourceFiles.get ⟨j, hj⟩).name
             (tc.compileErr j))] } := by
  have hok0 : ∀ k, k < j → tc.compileOk (0 + k) = true := by
    intro k hk
    rw [Nat.zero_add]
    exact hok k hk
  have hfail0 : tc.compileOk (0 + j) = false := by
    rwa [Nat.zero_add]
  simp only [ensureFernWebLibrary, hreb, if_true]
  rw [compileLoop_fail tc j src.sourceFiles 0 _ hj hok0 hfail0]
  simp [List.append_assoc]

/-- Every action of an all-successful compile trace is a successful compiler
invocation. -/
theorem compileTrace_shape (files : List SrcFile) : ∀ i, ∀ a ∈ compileTrace files i,
    ∃ nm k, a = Action.compileCmd nm k true := by
  induction files with
  | nil => intro i a ha; cases ha
  | cons f rest ih =>
    intro i a ha
    rw [compileTrace] at ha
    rcases List.mem_cons.mp ha with rfl | h2
    · exact ⟨f.name, i, rfl⟩
    · exact ih (i + 1) a h2

/-- C5: if compiling the `j`-th source file is the first compile to exit
non-zero, the builder prints that file's name together with the compiler
diagnostics and returns a failure, having invoked the compiler exactly
`j + 1` times (never on the remaining files) and the archiver not at all. -/
theorem c5_compile_fail_fast (tc : Toolchain) (src : FernSource) (lib0 : LibState)
    (objs0 : List Nat) (now : Nat) (j : Nat)
    (hreb : needsRebuild lib0 src = true)
    (hj : j < src.sourceFiles.length)
    (hok : ∀ k, k < j → tc.compileOk k = true)
    (hfail : tc.compileOk j = false) :
    (ensureFernWebLibrary tc src lib0 objs0 now).result = none ∧
    countCompiles (ensureFernWebLibrary tc src lib0 objs0 now).trace = j + 1 ∧
    countArchives (ensureFernWebLibrary tc src lib0 objs0 now).trace = 0 ∧
    Msg.compileFailed (src.sourceFiles.get ⟨j, hj⟩).name (tc.compileErr j) ∈
      msgsOf (ensureFernWebLibrary tc src lib0 objs0 now).trace := by
  rw [ensure_compile_failure tc src lib0 objs0 now j hreb hj hok hfail]
  refine ⟨rfl, ?_, ?_, ?_⟩
  · unfold countCompiles
    rw [List.countP_append, List.countP_append]
    have h1 := countCompiles_compileTrace (src.sourceFiles.take j) 0
    unfold countCompiles at h1
    rw [h1, List.length_take]
    simp [List.countP_cons, Nat.min_eq_left (Nat.le_of_lt hj)]
  · unfold countArchives
    rw [List.countP_append, List.countP_append]
    have h1 := countArchives_compileTrace (src.sourceFiles.take j) 0
    unfold countArchives at h1
    rw [h1]
    simp [List.countP_cons]
  · unfold msgsOf
    rw [List.filterMap_append, List.filterMap_append]
    have h1 := msgsOf_compileTrace (src.sourceFiles.take j) 0
    unfold msgsOf at h1
    rw [h1]
    simp

/-- C5 witness: with a toolchain failing on the second file of the concrete
source tree, the builder stops after two compiler invocations, never runs
the archiver, and reports `b.cpp` with the diagnostics. -/
theorem c5_witness :
    (ensureFernWebLibrary tcBadSecond srcEx .absent [] 200).result = none ∧
    countCompiles (ensureFernWebLibrary tcBadSecond srcEx .absent [] 200).trace = 2 ∧
    countArchives (ensureFernWebLibrary tcBadSecond srcEx .absent [] 200).trace = 0 ∧
    Msg.compileFailed "b.cpp" "boom" ∈
      msgsOf (ensureFernWebLibrary tcBadSecond srcEx .absent [] 200).trace := by
  have h := c5_compile_fail_fast tcBadSecond srcEx .absent [] 200 1 rfl (by decide)
    (fun k hk => by
      have hk0 : k = 0 := by omega
      subst hk0
      rfl) rfl
  exact ⟨h.1, h.2.1, h.2.2.1, h.2.2.2⟩

/-- C4 counterexample: with the compiler failing on the second source file,
the builder returns a failure with the already-created object file
`obj_0.o` still present in the cache directory — refuting "whenever the
builder returns, no intermediate numbered object files remain". -/
theorem c4_counterexample :
    (ensureFernWebLibrary tcBadSecond srcEx .absent [] 200).result = none ∧
    (ensureFernWebLibrary tcBadSecond srcEx .absent [] 200).objs = [0] := by
  exact ⟨rfl, rfl⟩

/-- C4 (amended): intermediate object files are deleted only on the success
path — after a successful archive all object files created during the run
are removed (an initially clean cache directory ends with none), while after
a compile failure or an archiver failure the object files created so far
remain in the cache directory. -/
theorem c4_object_cleanup (tc : Toolchain) (src : FernSource) (lib0 : LibState)
    (objs0 : List Nat) (now : Nat)
    (hreb : needsRebuild lib0 src = true) :
    ((∀ k, k < src.sourceFiles.length → tc.compileOk k = true) → tc.archiveOk = true →
      objs0 = [] → (ensureFernWebLibrary tc src lib0 objs0 now).objs = []) ∧
    ((∀ k, k < src.sourceFiles.length → tc.compileOk k = true) → tc.archiveOk = false →
      ∀ k, k ∈ (ensureFernWebLibrary tc src lib0 objs0 now).objs ↔
        k ∈ objs0 ∨ k < src.sourceFiles.length) ∧
    (∀ j, j < src.sourceFiles.length → (∀ k, k < j → tc.compileOk k = true) →
      tc.compileOk j = false →
      ∀ k, k ∈ (ensureFernWebLibrary tc src lib0 objs0 now).objs ↔
        k ∈ objs0 ∨ k < j) := by
  refine ⟨?_, ?_, ?_⟩
  · intro hc ha hobjs0
    subst hobjs0
    rw [ensure_rebuild_success tc src lib0 [] now hreb hc ha]
    show (insertRange [] 0 src.sourceFiles.length).filter
      (fun i => !decide (i < src.sourceFiles.length)) = []
    rw [List.filter_eq_nil_iff]
    intro a ha2
    rw [mem_insertRange] at ha2
    rcases ha2 with h | ⟨_, h2⟩
    · exact absurd h (List.not_mem_nil a)
    · simp only [Nat.zero_add] at h2
      simp [h2]
  · intro hc ha k
    rw [ensure_archive_failure tc src lib0 objs0 now hreb hc ha]
    show k ∈ insertRange objs0 0 src.sourceFiles.length ↔ _
    rw [mem_insertRange]
    simp
  · intro j hj hok hfail k
    rw [ensure_compile_failure tc src lib0 objs0 now j hreb hj hok hfail]
    show k ∈ insertRange objs0 0 j ↔ _
    rw [mem_insertRange]
    simp

/-- C4 witness: a fully successful rebuild from a clean cache directory
leaves no object files behind. -/
theorem c4_witness :
    (ensureFernWebLibrary tcAllOk srcEx .absent [] 200).objs = [] :=
  (c4_object_cleanup tcAllOk srcEx .absent [] 200 rfl).1 (fun k hk => rfl) rfl rfl

/-- C3 counterexample: with an archiver that exits non-zero after writing
part of the archive to its output path — which is the final artifact path,
not a temporary name — the builder returns a failure while the artifact path
holds a partially-written archive, and it never deletes the artifact path;
this refutes "the artifact path never holds a partially-written archive
after the builder returns". -/
theorem c3_counterexample :
    (ensureFernWebLibrary tcArchFail srcEx (.complete 10) [] 300).result = none ∧
    (ensureFernWebLibrary tcArchFail srcEx (.complete 10) [] 300).lib =
      .halfWritten 300 ∧
    Action.unlinkLib ∉ (ensureFernWebLibrary tcArchFail srcEx (.complete 10) [] 300).trace := by
  refine ⟨rfl, rfl, ?_⟩
  decide

/-- C3 (amended): on archiver failure the builder reports the archiver's
diagnostics and returns a failure outcome, but it hands the archiver the
final artifact path directly (never a temporary name), performs no rename
and no deletion of the artifact path, and therefore leaves the artifact path
in whatever state the failed archiver left it — possibly a partially-written
archive. -/
theorem c3_archive_failure_not_atomic (tc : Toolchain) (src : FernSource)
    (lib0 : LibState) (objs0 : List Nat) (now : Nat)
    (hreb : needsRebuild lib0 src = true)
    (hc : ∀ k, k < src.sourceFiles.length → tc.compileOk k = true)
    (ha : tc.archiveOk = false) :
    (ensureFernWebLibrary tc src lib0 objs0 now).result = none ∧
    Msg.archiveFailed tc.archiveErr ∈
      msgsOf (ensureFernWebLibrary tc src lib0 objs0 now).trace ∧
    (ensureFernWebLibrary tc src lib0 objs0 now).lib = tc.archFailLeaves lib0 ∧
    Action.archiveCmd true src.sourceFiles.length false ∈
      (ensureFernWebLibrary tc src lib0 objs0 now).trace ∧
    Action.unlinkLib ∉ (ensureFernWebLibrary tc src lib0 objs0 now).trace ∧
    (∀ s, Action.renameToLib s ∉ (ensureFernWebLibrary tc src lib0 objs0 now).trace) ∧
    (∀ n ok, Action.archiveCmd false n ok ∉
      (ensureFernWebLibrary tc src lib0 objs0 now).trace) := by
  rw [ensure_archive_failure tc src lib0 objs0 now hreb hc ha]
  refine ⟨rfl, ?_, rfl, ?_, ?_, ?_, ?_⟩
  · unfold msgsOf
    rw [List.filterMap_append]
    have h1 := msgsOf_compileTrace src.sourceFiles 0
    unfold msgsOf at h1
    rw [List.filterMap_append, h1]
    simp
  · simp
  · intro h
    rcases List.mem_append.mp h with h1 | h2
    · rcases List.mem_append.mp h1 with h3 | h4
      · simp at h3
      · obtain ⟨nm, k, heq⟩ := compileTrace_shape src.sourceFiles 0 _ h4
        cases heq
    · simp at h2
  · intro s h
    rcases List.mem_append.mp h with h1 | h2
    · rcases List.mem_append.mp h1 with h3 | h4
      · simp at h3
      · obtain ⟨nm, k, heq⟩ := compileTrace_shape src.sourceFiles 0 _ h4
        cases heq
    · simp at h2
  · intro n ok h
    rcases List.mem_append.mp h with h1 | h2
    · rcases List.mem_append.mp h1 with h3 | h4
      · simp at h3
      · obtain ⟨nm, k, heq⟩ := compileTrace_shape src.sourceFiles 0 _ h4
        cases heq
    · simp at h2

/-- C3 witness: a concrete failing-archiver run reports the diagnostics and
returns a failure. -/
theorem c3_witness :
    (ensureFernWebLibrary tcArchFail srcEx .absent [] 300).result = none ∧
    Msg.archiveFailed "ar err" ∈
      msgsOf (ensureFernWebLibrary tcArchFail srcEx .absent [] 300).trace := by
  have h := c3_archive_failure_not_atomic tcArchFail srcEx .absent [] 300 rfl
    (fun k hk => rfl) rfl
  exact ⟨h.1, h.2.1⟩

/-- C1 counterexample: with the cached artifact present and newer than every
source file (a reachable cache state), the first of two back-to-back calls
already takes the cache-hit path — it performs zero compiler and zero
archiver invocations over a source tree of three files, refuting "the first
call performs the compilation and archiving passes" for every cache state. -/
theorem c1_counterexample :
    countCompiles (ensureFernWebLibrary tcAllOk srcEx (.complete 100) [] 200).trace = 0 ∧
    countArchives (ensureFernWebLibrary tcAllOk srcEx (.complete 100) [] 200).trace = 0 ∧
    msgsOf (ensureFernWebLibrary tcAllOk srcEx (.complete 100) [] 200).trace =
      [.usingCached] ∧
    srcEx.sourceFiles.length = 3 :=
  ⟨rfl, rfl, rfl, rfl⟩

/-- C1 (amended): for every cache state, over two back-to-back calls with no
source file or artifact touched in between and a succeeding toolchain, the
first call performs the full compilation and archiving passes exactly when
the artifact is missing or stale (and none otherwise), and the second call
always performs zero compiler and zero archiver invocations, returns the
same artifact path, and emits the cache-reuse message instead of the
build-success message. -/
theorem c1_second_call_cache_hit (tc tc2 : Toolchain) (src : FernSource)
    (lib0 : LibState) (objs0 : List Nat) (now now2 : Nat) (r1 r2 : BuildRun)
    (hnew : ∀ f ∈ src.sourceFiles, f.mtime ≤ now)
    (hc : ∀ k, k < src.sourceFiles.length → tc.compileOk k = true)
    (ha : tc.archiveOk = true)
    (hr1 : r1 = ensureFernWebLibrary tc src lib0 objs0 now)
    (hr2 : r2 = ensureFernWebLibrary tc2 src r1.lib r1.objs now2) :
    r1.result = some libPath ∧
    (needsRebuild lib0 src = true →
      countCompiles r1.trace = src.sourceFiles.length ∧
      countArchives r1.trace = 1) ∧
    (needsRebuild lib0 src = false →
      countCompiles r1.trace = 0 ∧ countArchives r1.trace = 0) ∧
    r2.result = some libPath ∧
    countCompiles r2.trace = 0 ∧
    countArchives r2.trace = 0 ∧
    msgsOf r2.trace = [.usingCached] := by
  have hsn : sourceNewer src now = false := by
    unfold sourceNewer
    rw [Bool.or_eq_false_iff]
    constructor
    · rw [List.any_eq_false]
      intro f hf
      have hle := hnew f (List.mem_append.mpr (Or.inl hf))
      simp only [decide_eq_true_eq]
      omega
    · rw [List.any_eq_false]
      intro f hf
      have hle := hnew f (List.mem_append.mpr (Or.inr hf))
      simp only [decide_eq_true_eq]
      omega
  by_cases hreb : needsRebuild lib0 src = true
  · rw [ensure_rebuild_success tc src lib0 objs0 now hreb hc ha] at hr1
    have hreb2 : needsRebuild r1.lib src = false := by
      rw [hr1]
      show needsRebuild (.complete now) src = false
      simp only [needsRebuild, LibState.mtimeOf]
      exact hsn
    rw [ensure_cache_hit tc2 src r1.lib r1.objs now2 hreb2] at hr2
    refine ⟨by rw [hr1], ?_, ?_, by rw [hr2], by rw [hr2]; rfl, by rw [hr2]; rfl,
      by rw [hr2]; rfl⟩
    · intro _
      constructor
      · rw [hr1]
        show countCompiles ([Action.print .building] ++ compileTrace src.sourceFiles 0 ++
          [Action.archiveCmd true src.sourceFiles.length true] ++
          cleanupActs (insertRange objs0 0 src.sourceFiles.length)
            src.sourceFiles.length ++ [Action.print .buildSuccess]) = _
        unfold countCompiles
        rw [List.countP_append, List.countP_append, List.countP_append,
          List.countP_append]
        have h1 := countCompiles_compileTrace src.sourceFiles 0
        unfold countCompiles at h1
        have h2 := countCompiles_cleanupActs
          (insertRange objs0 0 src.sourceFiles.length) src.sourceFiles.length
        unfold countCompiles at h2
        rw [h1, h2]
        simp
      · rw [hr1]
        show countArchives ([Action.print .building] ++ compileTrace src.sourceFiles 0 ++
          [Action.archiveCmd true src.sourceFiles.length true] ++
          cleanupActs (insertRange objs0 0 src.sourceFiles.length)
            src.sourceFiles.length ++ [Action.print .buildSuccess]) = _
        unfold countArchives
        rw [List.countP_append, List.countP_append, List.countP_append,
          List.countP_append]
        have h1 := countArchives_compileTrace src.sourceFiles 0
        unfold countArchives at h1
        have h2 := countArchives_cleanupActs
          (insertRange objs0 0 src.sourceFiles.length) src.sourceFiles.length
        unfold countArchives at h2
        rw [h1, h2]
        simp
    · intro hfalse
      rw [hreb] at hfalse
      cases hfalse
  · have hrebF : needsRebuild lib0 src = false := by
      rwa [Bool.not_eq_true] at hreb
    rw [ensure_cache_hit tc src lib0 objs0 now hrebF] at hr1
    have hreb2 : needsRebuild r1.lib src = false := by
      rw [hr1]
      exact hrebF
    rw [ensure_cache_hit tc2 src r1.lib r1.objs now2 hreb2] at hr2
    refine ⟨by rw [hr1], ?_, ?_, by rw [hr2], by rw [hr2]; rfl, by rw [hr2]; rfl,
      by rw [hr2]; rfl⟩
    · intro htrue
      rw [hrebF] at htrue
      cases htrue
    · intro _
      rw [hr1]
      exact ⟨rfl, rfl⟩

/-- C1 witness: after a first successful build from an empty cache, the
second call reuses the cache — zero archiver invocations and the
cache-reuse message. -/
theorem c1_witness :
    msgsOf (ensureFernWebLibrary tcAllOk srcEx
      (ensureFernWebLibrary tcAllOk srcEx .absent [] 200).lib
      (ensureFernWebLibrary tcAllOk srcEx .absent [] 200).objs 300).trace =
      [.usingCached] ∧
    countArchives (ensureFernWebLibrary tcAllOk srcEx
      (ensureFernWebLibrary tcAllOk srcEx .absent [] 200).lib
      (ensureFernWebLibrary tcAllOk srcEx .absent [] 200).objs 300).trace = 0 := by
  have h := c1_second_call_cache_hit tcAllOk tcAllOk srcEx .absent [] 200 300
    (ensureFernWebLibrary tcAllOk srcEx .absent [] 200)
    (ensureFernWebLibrary tcAllOk srcEx
      (ensureFernWebLibrary tcAllOk srcEx .absent [] 200).lib
      (ensureFernWebLibrary tcAllOk srcEx .absent [] 200).objs 300)
    (by decide) (fun k hk => rfl) rfl rfl rfl
  exact ⟨h.2.2.2.2.2.2, h.2.2.2.2.2.1⟩

/-- ASCII lower-casing leaves a decimal digit unchanged. -/
theorem pyCharLower_digit (c : Char) (h : pyCharIsDigit c = true) :
    pyCharLower c = c := by
  unfold pyCharIsDigit at h
  rw [Bool.and_eq_true] at h
  obtain ⟨h1, h2⟩ := h
  rw [decide_eq_true_eq] at h1 h2
  unfold pyCharLower
  rw [if_neg (by omega)]

/-- `str.lower` leaves an all-digit string unchanged. -/
theorem pyLower_of_digits : ∀ (v : List Char),
    (∀ c ∈ v, pyCharIsDigit c = true) → pyLower v = v := by
  intro v
  induction v with
  | nil => intro h; rfl
  | cons c rest ih =>
    intro h
    unfold pyLower at ih ⊢
    rw [List.map_cons, pyCharLower_digit c (h c (List.mem_cons_self c rest)),
      ih (fun x hx => h x (List.mem_cons_of_mem c hx))]

/-- Helper for C7: an all-digit scalar converts to a native integer — it can
collide with neither boolean literal. -/
theorem pyIsDigit_convert (v : List Char) (h : pyIsDigit v = true) :
    convertScalar v = .i (pyInt v) := by
  have hall : ∀ c ∈ v, pyCharIsDigit c = true := by
    unfold pyIsDigit at h
    rw [Bool.and_eq_true] at h
    exact fun c hc => List.all_eq_true.mp h.2 c hc
  have hlow : pyLower v = v := pyLower_of_digits v hall
  have hne1 : pyLower v ≠ "true".data := by
    rw [hlow]
    intro he
    subst he
    exact absurd (hall 't' (by decide)) (by decide)
  have hne2 : pyLower v ≠ "false".data := by
    rw [hlow]
    intro he
    subst he
    exact absurd (hall 'f' (by decide)) (by decide)
  unfold convertScalar
  rw [if_neg hne1, if_neg hne2, if_pos h]

/-- C7: the minimal config parser turns the two-level-nested input
`platforms:\n  web:\n    port: 4000` into a mapping whose nested lookup of
the web-platform port is the native integer 4000; top-level `true` / `false`
scalars parse to native booleans, and every all-digit scalar parses to a
native integer (never a string). -/
theorem c7_parse_simple_yaml :
    Option.bind (Option.bind
        ((YVal.dict (parse_simple_yaml "platforms:\n  web:\n    port: 4000")).getKey
          "platforms")
        (fun v => v.getKey "web"))
      (fun v => v.getKey "port") = some (.i 4000) ∧
    parse_simple_yaml "flag: true" = [("flag", .b true)] ∧
    parse_simple_yaml "flag: false" = [("flag", .b false)] ∧
    parse_simple_yaml "num: 123" = [("num", .i 123)] ∧
    (∀ v : List Char, pyIsDigit v = true → convertScalar v = .i (pyInt v)) :=
  ⟨rfl, rfl, rfl, rfl, pyIsDigit_convert⟩

/-- C7 witness: the all-digit scalar `4000` converts to the native
integer 4000. -/
theorem c7_witness :
    convertScalar "4000".data = YVal.i 4000 := by
  have h := c7_parse_simple_yaml.2.2.2.2 "4000".data rfl
  exact h

end Terra
